import Mathlib

/-!
Shallow embedding of the authorization-token storage layer
(`token/storage_auth.go`): the codec, the two-bucket key-value model,
the CRUD operations, uniqueness enforcement and the two-tier filter
engine, together with theorems settling the specification claims.
-/

namespace Token

/-- `influxdb.Permission` is never inspected by this storage layer; it is
modelled as an opaque payload. -/
structure Permission where
  raw : Nat
deriving DecidableEq, Repr, Inhabited

/-- `influxdb.Authorization`. Identifiers (`influxdb.ID`, a `uint64`) are
modelled as `Nat`; statuses (`influxdb.Status`, a Go string) as `String`.
`createdAt`/`updatedAt` are the embedded `CRUDLog` timestamps. -/
structure Authorization where
  id : Nat
  token : String
  status : String
  description : String
  orgID : Nat
  userID : Nat
  permissions : List Permission
  createdAt : Nat
  updatedAt : Nat
deriving DecidableEq, Repr, Inhabited

/-- `influxdb.Active`. -/
def Active : String := "active"

/-- `influxdb.Inactive`. -/
def Inactive : String := "inactive"

/-- `influxdb.ID.Valid`: the zero identifier is invalid. -/
def idValid (n : Nat) : Bool := n != 0

/-- `influxdb.ID.Encode`: fails on an invalid (zero) identifier, otherwise
yields the 8-byte big-endian (hex) key. The byte encoding is fixed-width
and order-isomorphic to numeric order, so the key is modelled as the
number itself. -/
def idEncode (n : Nat) : Except Unit Nat :=
  if n = 0 then .error () else .ok n

/-- `influxdb.ID.Decode` applied to an index value. Index values are
written by this layer as valid 8-byte encodings, which always decode. -/
def idDecode (n : Nat) : Except Unit Nat := .ok n

/-- A raw value held in the primary bucket: either the JSON encoding of an
authorization (abstracted as the record itself — `encodeAuthorization`
marshals every field, with `userID` carrying `omitempty`) or bytes that
do not decode. -/
inductive StoredVal where
  | authVal (a : Authorization)
  | corrupt
deriving DecidableEq, Repr

/-- Encoding failures of `encodeAuthorization`. -/
inductive EncodeErr where
  /-- `&influxdb.Error{Code: EInvalid, Msg: "unknown authorization
  status"}`, raised by the status validation before serialization. -/
  | unknownStatus
  /-- A `json.Marshal` failure: `influxdb.ID.MarshalJSON` delegates to
  `ID.Encode`, which fails on the invalid zero identifier, and the `id`
  and `orgID` fields carry no `omitempty`, so marshaling a record with a
  zero id or orgID fails. -/
  | marshalError
deriving DecidableEq, Repr

/-- Decoding failures of `decodeAuthorization`. -/
inductive DecodeErr where
  /-- `json.Unmarshal` returns an `InvalidUnmarshalError` when its target
  pointer is nil, before reading any input (documented `encoding/json`
  behaviour). -/
  | invalidUnmarshal
  /-- The bytes are not a valid encoding of an authorization. -/
  | unmarshalFailure
deriving DecidableEq, Repr

/-- `json.Marshal` of an `Authorization`: the `id` and `orgID` fields are
marshaled through `influxdb.ID.MarshalJSON`, which delegates to
`ID.Encode` and therefore fails on the invalid zero identifier; `userID`
carries `omitempty`, so a zero user identifier is omitted rather than
marshaled; the remaining fields always marshal. -/
def jsonMarshal (a : Authorization) : Except EncodeErr StoredVal :=
  match idEncode a.id, idEncode a.orgID with
  | .ok _, .ok _ => .ok (.authVal a)
  | _, _ => .error .marshalError

/-- `encodeAuthorization`: validates the status — `Active`/`Inactive` pass,
the empty status is rewritten to `Active` in place (the mutated record is
returned alongside the bytes, since the Go function mutates its argument),
any other value fails before serialization — then `json.Marshal`s the
record, which can itself fail on an unencodable (zero) id or orgID. -/
def encodeAuthorization (a : Authorization) :
    Except EncodeErr (Authorization × StoredVal) :=
  if a.status = Active ∨ a.status = Inactive then
    match jsonMarshal a with
    | .error e => .error e
    | .ok v => .ok (a, v)
  else if a.status = "" then
    match jsonMarshal { a with status := Active } with
    | .error e => .error e
    | .ok v => .ok ({ a with status := Active }, v)
  else
    .error .unknownStatus

/-- The record produced by `json.Unmarshal`ing the bytes of `a` into the
(non-nil) target `t`: every marshaled field overwrites the target's,
while the `omitempty`-absent `userID` field (absent exactly when zero)
keeps the target's prior value. -/
def jsonUnmarshalInto (t a : Authorization) : Authorization :=
  if a.userID = 0 then { a with userID := t.userID } else a

/-- `decodeAuthorization`: `json.Unmarshal` into the target pointer
(`none` models a nil pointer, which `json.Unmarshal` rejects outright),
then an empty decoded status is normalised to `Active`. -/
def decodeAuthorization (b : StoredVal) (target : Option Authorization) :
    Except DecodeErr Authorization :=
  match target with
  | none => .error .invalidUnmarshal
  | some t =>
    match b with
    | .corrupt => .error .unmarshalFailure
    | .authVal a =>
      .ok (if (jsonUnmarshalInto t a).status = "" then
             { jsonUnmarshalInto t a with status := Active }
           else jsonUnmarshalInto t a)

/-- The two buckets backing the store: the primary bucket (key = encoded
identifier), kept sorted in ascending key order exactly as the bucket
cursor exposes it, and the token index bucket (key = raw token bytes,
value = encoded identifier). The index is never iterated, so its entry
order is immaterial and a plain association list suffices. -/
structure StoreState where
  primary : List (Nat × StoredVal)
  index : List (String × Nat)
deriving DecidableEq, Repr

/-- The store as initialised by `initializeAuths`: both buckets empty. -/
def emptyStore : StoreState := ⟨[], []⟩

/-- `Bucket.Get` on the primary bucket (`none` = `kv.ErrKeyNotFound`). -/
def primGet : List (Nat × StoredVal) → Nat → Option StoredVal
  | [], _ => none
  | (k', v) :: rest, k => if k' = k then some v else primGet rest k

/-- `Bucket.Put` on the primary bucket: replace the entry for the key or
insert it at its sorted position. -/
def primPut : List (Nat × StoredVal) → Nat → StoredVal → List (Nat × StoredVal)
  | [], k, v => [(k, v)]
  | (k', v') :: rest, k, v =>
    if k < k' then (k, v) :: (k', v') :: rest
    else if k = k' then (k, v) :: rest
    else (k', v') :: primPut rest k v

/-- `Bucket.Delete` on the primary bucket. -/
def primDel : List (Nat × StoredVal) → Nat → List (Nat × StoredVal)
  | [], _ => []
  | (k', v') :: rest, k => if k' = k then rest else (k', v') :: primDel rest k

/-- `Bucket.Get` on the token index bucket. -/
def idxGet : List (String × Nat) → String → Option Nat
  | [], _ => none
  | (t', i) :: rest, t => if t' = t then some i else idxGet rest t

/-- `Bucket.Put` on the token index bucket (replace or append). -/
def idxPut : List (String × Nat) → String → Nat → List (String × Nat)
  | [], t, i => [(t, i)]
  | (t', i') :: rest, t, i =>
    if t' = t then (t, i) :: rest else (t', i') :: idxPut rest t i

/-- `Bucket.Delete` on the token index bucket. -/
def idxDel : List (String × Nat) → String → List (String × Nat)
  | [], _ => []
  | (t', i') :: rest, t => if t' = t then rest else (t', i') :: idxDel rest t

/-- The distinguishable error values surfaced by the store; each
constructor names the Go error value (or wrapping) it models. -/
inductive StoreErr where
  /-- `ErrInvalidAuthID`. -/
  | invalidAuthID
  /-- `ErrInvalidAuthIDError(err)` (Create's wrapping of `ID.Encode`). -/
  | invalidAuthIDWrap
  /-- `ErrAuthNotFound`. -/
  | authNotFound
  /-- `ENotFound` with message "authorization not found" (GetByToken). -/
  | tokenNotFound
  /-- `EInvalid` wrapping a decode failure. -/
  | invalidEncoding (e : DecodeErr)
  /-- `EInvalid` wrapping an encode failure. -/
  | invalidInput (e : EncodeErr)
  /-- `EInvalid` wrapping an `ID.Decode` failure (GetByToken). -/
  | invalidIDBytes
  /-- `ENotFound` wrapping the failed load at the start of Update. -/
  | notFoundWrap (e : StoreErr)
  /-- `ENotFound` wrapping an `ID.Encode` failure inside Update. -/
  | notFoundIDEncode
  /-- `kv.NotUniqueError`. -/
  | notUnique
  /-- `influxdb.ErrUnableToCreateToken`, the generic creation error. -/
  | unableToCreateToken
  /-- `kv.UnexpectedIndexError(err)` wrapping an unexpected lookup error. -/
  | unexpectedIndexError (e : Nat)
  /-- Marker for a Go nil-pointer dereference; used only on branches shown
  unreachable. -/
  | nilDeref
deriving DecidableEq, Repr

/-- `GetAuthorizationByID`: encode the identifier, look up the primary
bucket, and decode the hit into the named return value `a` — a pointer
that the function never allocates, so the decode target is the nil
pointer (`none`). On a successful decode the (still nil) pointer would be
returned, hence `.ok none` on that branch. -/
def GetAuthorizationByID (st : StoreState) (id : Nat) :
    Except StoreErr (Option Authorization) :=
  match idEncode id with
  | .error _ => .error .invalidAuthID
  | .ok encodedID =>
    match primGet st.primary encodedID with
    | none => .error .authNotFound
    | some v =>
      match decodeAuthorization v none with
      | .error e => .error (.invalidEncoding e)
      | .ok _ => .ok none

/-- `GetAuthorizationByToken`: look the token up in the index, decode the
stored identifier and delegate to `GetAuthorizationByID`. -/
def GetAuthorizationByToken (st : StoreState) (token : String) :
    Except StoreErr (Option Authorization) :=
  match idxGet st.index token with
  | none => .error .tokenNotFound
  | some idKey =>
    match idDecode idKey with
    | .error _ => .error .invalidIDBytes
    | .ok id => GetAuthorizationByID st id

/-- Outcome of the index-bucket `Get` inside `unique`: a hit, a not-found,
or any other (unexpected) storage error. In the deterministic bucket model
only the first two arise; the third is kept so the handling of unexpected
lookup errors is part of the translation. -/
inductive KVGetResult where
  | found (v : Nat)
  | notFound
  | otherError (e : Nat)
deriving DecidableEq, Repr

/-- The error analysis of `unique` as a function of the lookup outcome:
not-found means unique (success); a hit means `kv.NotUniqueError`; any
other error is wrapped as `kv.UnexpectedIndexError` and propagated. -/
def uniqueFromGet : KVGetResult → Option StoreErr
  | .notFound => none
  | .found _ => some .notUnique
  | .otherError e => some (.unexpectedIndexError e)

/-- `unique(ctx, tx, authIndex, indexKey)` over the deterministic store. -/
def unique (st : StoreState) (indexKey : String) : Option StoreErr :=
  uniqueFromGet
    (match idxGet st.index indexKey with
     | some v => .found v
     | none => .notFound)

/-- `uniqueAuthToken`: `kv.NotUniqueError` is replaced by the generic
`ErrUnableToCreateToken` to hide whether a token exists; every other
outcome of `unique` is returned unchanged. -/
def uniqueAuthToken (st : StoreState) (token : String) : Option StoreErr :=
  match unique st token with
  | some .notUnique => some .unableToCreateToken
  | r => r

/-- The body of `CreateAuthorization` after the identifier branch: encode
(status normalisation mutates the record), encode the identifier, check
token uniqueness, then write the index entry and the primary entry. -/
def createAuthorizationCore (st : StoreState) (a : Authorization) :
    Except StoreErr (StoreState × Authorization) :=
  match encodeAuthorization a with
  | .error e => .error (.invalidInput e)
  | .ok (a', v) =>
    match idEncode a'.id with
    | .error _ => .error .invalidAuthIDWrap
    | .ok encodedID =>
      match uniqueAuthToken st a'.token with
      | some e => .error e
      | none =>
        let st₁ : StoreState := { st with index := idxPut st.index a'.token encodedID }
        let st₂ : StoreState := { st₁ with primary := primPut st₁.primary encodedID v }
        .ok (st₂, a')

/-- `CreateAuthorization`: if the record has no valid identifier, ask the
generator (`generateSafeID`, passed in as the oracle `gen`); on a
generator error the Go code executes `return nil` — a success that writes
nothing and assigns no identifier. Otherwise proceed with the core body.
The result carries the new store state and the (mutated) record. -/
def CreateAuthorization (gen : Except Unit Nat) (st : StoreState)
    (a : Authorization) : Except StoreErr (StoreState × Authorization) :=
  if idValid a.id then
    createAuthorizationCore st a
  else
    match gen with
    | .error _ => .ok (st, a)
    | .ok newId => createAuthorizationCore st { a with id := newId }

/-- `AuthorizationUpdate`: the mutation specification. -/
structure AuthorizationUpdate where
  status : Option String
  description : Option String
deriving DecidableEq, Repr

/-- `UpdateAuthorization`: load by identifier (wrapping any failure in a
Not-Found error), encode the loaded record — before the update fields are
applied — then apply `upd.Status`/`upd.Description`, stamp `updatedAt`
with the current time (`now`), and rewrite the index entry and the primary
entry; the primary rewrite stores `v`, the bytes encoded before the update
was applied. Returns the updated in-memory record. On the (unreachable)
branch where the load "succeeds", the Go code would dereference the nil
pointer it returned. -/
def UpdateAuthorization (now : Nat) (st : StoreState) (id : Nat)
    (upd : AuthorizationUpdate) : Except StoreErr (StoreState × Authorization) :=
  match GetAuthorizationByID st id with
  | .error e => .error (.notFoundWrap e)
  | .ok none => .error .nilDeref
  | .ok (some a) =>
    match encodeAuthorization a with
    | .error e => .error (.invalidInput e)
    | .ok (a₁, v) =>
      match idEncode a₁.id with
      | .error _ => .error .notFoundIDEncode
      | .ok encodedID =>
        let a₂ := match upd.status with
          | some s => { a₁ with status := s }
          | none => a₁
        let a₃ := match upd.description with
          | some d => { a₂ with description := d }
          | none => a₂
        let a₄ := { a₃ with updatedAt := now }
        let st₁ : StoreState := { st with index := idxPut st.index a₄.token encodedID }
        let st₂ : StoreState := { st₁ with primary := primPut st₁.primary encodedID v }
        .ok (st₂, a₄)

/-- `DeleteAuthorization`: load by identifier — any load failure makes the
delete a silent success (`return nil`) — then remove the index entry by
the loaded record's token and the primary entry by the encoded
identifier. On the (unreachable) branch where the load "succeeds", the Go
code would dereference the nil pointer it returned. -/
def DeleteAuthorization (st : StoreState) (id : Nat) :
    Except StoreErr StoreState :=
  match GetAuthorizationByID st id with
  | .error _ => .ok st
  | .ok none => .error .nilDeref
  | .ok (some a) =>
    match idEncode id with
    | .error _ => .error .invalidAuthID
    | .ok encodedID =>
      .ok { primary := primDel st.primary encodedID,
            index := idxDel st.index a.token }

/-- `influxdb.AuthorizationFilter`: four optional fields. -/
structure AuthorizationFilter where
  id : Option Nat := none
  token : Option String := none
  orgID : Option Nat := none
  userID : Option Nat := none
deriving DecidableEq, Repr

/-- `jsonp.GetID(value, "id")` on a raw stored value: fails on bytes that
are not a record encoding, otherwise extracts the field. -/
def rawGetID : StoredVal → Except Unit Nat
  | .corrupt => .error ()
  | .authVal a => .ok a.id

/-- `jsonparser.Get(value, "token")` on a raw stored value. -/
def rawGetToken : StoredVal → Except Unit String
  | .corrupt => .error ()
  | .authVal a => .ok a.token

/-- `jsonp.GetID(value, "orgID")` on a raw stored value. -/
def rawGetOrgID : StoredVal → Except Unit Nat
  | .corrupt => .error ()
  | .authVal a => .ok a.orgID

/-- `jsonp.GetOptionalID(value, "userID")` on a raw stored value: the
`userID` field carries `omitempty`, so a zero user identifier is marshaled
as an absent field — extraction then reports `(0, exists = false)` with no
error. On bytes that are not a record encoding it fails. -/
def rawGetOptionalUserID : StoredVal → Except Unit (Nat × Bool)
  | .corrupt => .error ()
  | .authVal a => .ok (if a.userID = 0 then (0, false) else (a.userID, true))

/-- `authorizationsPredicateFn`: builds the storage-level hint predicate
(over the raw key and value bytes) for a filter, or `none` when no filter
field is set. Branch order and the error handling of each extraction
follow the source: a failed extraction makes the branch report `true`
("include"), except that the userID branch treats an absent-but-readable
field as a mismatch (`(exp == got && exists) || err != nil`). -/
def authorizationsPredicateFn (f : AuthorizationFilter) :
    Option (Nat → StoredVal → Bool) :=
  match f.id with
  | some exp =>
    some (fun _ value =>
      match rawGetID value with
      | .error _ => true
      | .ok got => got == exp)
  | none =>
  match f.token with
  | some exp =>
    some (fun _ value =>
      match rawGetToken value with
      | .error _ => true
      | .ok got => got == exp)
  | none =>
  let pred : Option (Nat → StoredVal → Bool) :=
    match f.orgID with
    | some exp =>
      some (fun _ value =>
        match rawGetOrgID value with
        | .error _ => true
        | .ok got => got == exp)
    | none => none
  match f.userID with
  | some exp =>
    let prevFn := pred
    some (fun key value =>
      let prev := match prevFn with
        | none => true
        | some p => p key value
      match rawGetOptionalUserID value with
      | .error _ => prev && ((false) || true)
      | .ok (got, gotExists) => prev && ((exp == got && gotExists) || false))
  | none => pred

/-- `filterAuthorizationsFn`: the authoritative filter over decoded
records, with the source's precedence — identifier, else token, else
organisation and user both, else organisation, else user, else
match-all. -/
def filterAuthorizationsFn (f : AuthorizationFilter) : Authorization → Bool :=
  match f.id with
  | some i => fun a => a.id == i
  | none =>
  match f.token with
  | some t => fun a => a.token == t
  | none =>
  match f.orgID, f.userID with
  | some o, some u => fun a => a.orgID == o && a.userID == u
  | some o, none => fun a => a.orgID == o
  | none, some u => fun a => a.userID == u
  | none, none => fun _ => true

/-- The fresh record allocated for each visited entry inside
`forEachAuthorization`, with its preallocated 64-entry permission slice. -/
def freshIterAuth : Authorization :=
  { id := 0, token := "", status := "", description := "", orgID := 0,
    userID := 0, permissions := List.replicate 64 default,
    createdAt := 0, updatedAt := 0 }

/-- The cursor loop of `forEachAuthorization` over the entries the cursor
yields, in ascending key order. The Go callback is a closure mutating
captured state, so it is modelled as a state-threading function returning
the continue flag and the new state; the final state is returned even when
iteration aborts with a decode error, exactly as a Go closure's captured
variables survive the early return. -/
def forEachLoop {σ : Type} (fn : σ → Authorization → Bool × σ) :
    List (Nat × StoredVal) → σ → Except DecodeErr Unit × σ
  | [], s => (.ok (), s)
  | (_, v) :: rest, s =>
    match decodeAuthorization v (some freshIterAuth) with
    | .error e => (.error e, s)
    | .ok a =>
      let (cont, s') := fn s a
      if cont then forEachLoop fn rest s' else (.ok (), s')

/-- The entries the primary bucket's cursor yields: all of them for a
plain cursor, and — when a hint predicate is supplied via
`kv.WithCursorHintPredicate` — only those the predicate admits, the
storage-level skipping the hint exists to enable. -/
def cursorEntries (st : StoreState) (pred : Option (Nat → StoredVal → Bool)) :
    List (Nat × StoredVal) :=
  match pred with
  | none => st.primary
  | some p => st.primary.filter (fun e => p e.1 e.2)

/-- `forEachAuthorization`: open a cursor over the primary bucket (with
the hint predicate when one is supplied) and run the loop from the first
key. -/
def forEachAuthorization {σ : Type} (st : StoreState)
    (pred : Option (Nat → StoredVal → Bool))
    (fn : σ → Authorization → Bool × σ) (s : σ) : Except DecodeErr Unit × σ :=
  forEachLoop fn (cursorEntries st pred) s

/-- `ListAuthorizations`: build the hint predicate and the authoritative
filter, iterate every authorization appending those the filter admits
(the callback always continues), and surface any iteration error. -/
def ListAuthorizations (st : StoreState) (f : AuthorizationFilter) :
    Except DecodeErr (List Authorization) :=
  let pred := authorizationsPredicateFn f
  let filterFn := filterAuthorizationsFn f
  let (r, as) := forEachAuthorization st pred
    (fun (as : List Authorization) a =>
      (true, if filterFn a then as ++ [a] else as)) []
  match r with
  | .error e => .error e
  | .ok _ => .ok as

/-- Status normalisation shared by the write and read paths: an empty
status becomes `Active`, everything else is untouched. -/
def normalizeStatus (a : Authorization) : Authorization :=
  if a.status = "" then { a with status := Active } else a

/-- The records the iteration engine hands to its callback, in cursor
order: the decodes of the visited entries. -/
def decs (l : List (Nat × StoredVal)) : List Authorization :=
  l.filterMap (fun e => (decodeAuthorization e.2 (some freshIterAuth)).toOption)

/-- Bidirectional index consistency: every token key of the index bucket
resolves to a primary record carrying that token, and every primary
record's token is an index key mapping back to the record's encoded
identifier. -/
def Consistent (st : StoreState) : Prop :=
  (∀ t i, idxGet st.index t = some i →
    ∃ a, primGet st.primary i = some (.authVal a) ∧ a.token = t) ∧
  (∀ k v, primGet st.primary k = some v →
    ∃ a, v = .authVal a ∧ idxGet st.index a.token = some k)

/-- One successful mutating operation of the store. -/
inductive Step : StoreState → StoreState → Prop
  | create (gen : Except Unit Nat) (a : Authorization) {st st' : StoreState}
      {a' : Authorization} (h : CreateAuthorization gen st a = .ok (st', a')) :
      Step st st'
  | update (now id : Nat) (upd : AuthorizationUpdate) {st st' : StoreState}
      {a' : Authorization}
      (h : UpdateAuthorization now st id upd = .ok (st', a')) : Step st st'
  | delete (id : Nat) {st st' : StoreState}
      (h : DeleteAuthorization st id = .ok st') : Step st st'

/-- One successful mutating operation, with every create writing under a
fresh identifier (not already a primary key): caller-supplied identifiers
are fresh and the generator is collision-checked. -/
inductive StepF : StoreState → StoreState → Prop
  | create (gen : Except Unit Nat) (a : Authorization) {st st' : StoreState}
      {a' : Authorization} (h : CreateAuthorization gen st a = .ok (st', a'))
      (hfresh : primGet st.primary a'.id = none) : StepF st st'
  | update (now id : Nat) (upd : AuthorizationUpdate) {st st' : StoreState}
      {a' : Authorization}
      (h : UpdateAuthorization now st id upd = .ok (st', a')) : StepF st st'
  | delete (id : Nat) {st st' : StoreState}
      (h : DeleteAuthorization st id = .ok st') : StepF st st'

/-- States reachable from the empty store by successful operations. -/
def Reachable (st : StoreState) : Prop :=
  Relation.ReflTransGen Step emptyStore st

/-- States reachable from the empty store by successful operations whose
creates write under fresh identifiers. -/
def ReachableF (st : StoreState) : Prop :=
  Relation.ReflTransGen StepF emptyStore st

/-- Fixture: a record submitted to Create with no identifier assigned. -/
def aNew : Authorization :=
  { id := 0, token := "a", status := "", description := "", orgID := 10,
    userID := 100, permissions := [], createdAt := 0, updatedAt := 0 }

/-- Fixture: `aNew` as persisted under generated identifier 1 (status
normalised to Active on the write path). -/
def aStored : Authorization := { aNew with id := 1, status := Active }

/-- Fixture: the store holding exactly the persisted `aStored`. -/
def stOne : StoreState := ⟨[(1, .authVal aStored)], [("a", 1)]⟩

/-- Fixture: a second record submitted with the token of `aNew`. -/
def aDup : Authorization :=
  { id := 0, token := "a", status := "", description := "", orgID := 11,
    userID := 101, permissions := [], createdAt := 0, updatedAt := 0 }

/-- Fixture A of the filter-precedence scenario. -/
def recA : Authorization :=
  { id := 1, token := "a", status := Active, description := "", orgID := 10,
    userID := 100, permissions := [], createdAt := 0, updatedAt := 0 }

/-- Fixture B of the filter-precedence scenario. -/
def recB : Authorization :=
  { id := 2, token := "b", status := Active, description := "", orgID := 10,
    userID := 200, permissions := [], createdAt := 0, updatedAt := 0 }

/-- Fixture: the store holding A and B. -/
def stAB : StoreState :=
  ⟨[(1, .authVal recA), (2, .authVal recB)], [("a", 1), ("b", 2)]⟩

/-- Fixture: a record whose user identifier is zero, so its `userID`
field is absent from the marshaled bytes. -/
def rBare : Authorization :=
  { id := 3, token := "c", status := Active, description := "", orgID := 10,
    userID := 0, permissions := [], createdAt := 0, updatedAt := 0 }

/-- Fixture: the raw bytes of `rBare`. -/
def vBare : StoredVal := .authVal rBare

/-- Fixture: a filter selecting user 5. -/
def fUser5 : AuthorizationFilter := { userID := some 5 }

/-- Fixture: a filter selecting (invalid) user 0. -/
def fUser0 : AuthorizationFilter := { userID := some 0 }

/-- Fixture: a record with user 5 and a present `userID` field. -/
def rUser5 : Authorization :=
  { id := 4, token := "d", status := Active, description := "", orgID := 10,
    userID := 5, permissions := [], createdAt := 0, updatedAt := 0 }

/-- Fixture: a record created with caller-supplied identifier 1, token x. -/
def cFirst : Authorization :=
  { id := 1, token := "x", status := Active, description := "", orgID := 1,
    userID := 1, permissions := [], createdAt := 0, updatedAt := 0 }

/-- Fixture: a record reusing identifier 1 with a different token y. -/
def cSecond : Authorization :=
  { id := 1, token := "y", status := Active, description := "", orgID := 1,
    userID := 1, permissions := [], createdAt := 0, updatedAt := 0 }

/-- Fixture: the store after creating `cFirst` in the empty store. -/
def stX : StoreState := ⟨[(1, .authVal cFirst)], [("x", 1)]⟩

/-- Fixture: the store after additionally creating `cSecond`: the primary
entry under 1 is overwritten while the index entry for x survives. -/
def stXY : StoreState := ⟨[(1, .authVal cSecond)], [("x", 1), ("y", 1)]⟩

section AssocLemmas

theorem primGet_primPut_self (l : List (Nat × StoredVal)) (k : Nat)
    (v : StoredVal) : primGet (primPut l k v) k = some v := by
  induction l with
  | nil => simp [primPut, primGet]
  | cons e rest ih =>
    obtain ⟨k', v'⟩ := e
    by_cases h1 : k < k'
    · simp [primPut, h1, primGet, Nat.ne_of_lt h1]
    · by_cases h2 : k = k'
      · subst h2; simp [primPut, h1, primGet]
      · have h3 : k' ≠ k := fun h => h2 h.symm
        simp [primPut, h1, h2, primGet, h3, ih]

theorem primGet_primPut_ne (l : List (Nat × StoredVal)) (k k' : Nat)
    (v : StoredVal) (hne : k' ≠ k) :
    primGet (primPut l k v) k' = primGet l k' := by
  induction l with
  | nil => simp [primPut, primGet, Ne.symm hne]
  | cons e rest ih =>
    obtain ⟨k₀, v₀⟩ := e
    by_cases h1 : k < k₀
    · simp [primPut, h1, primGet, Ne.symm hne]
    · by_cases h2 : k = k₀
      · subst h2; simp [primPut, h1, primGet, Ne.symm hne]
      · simp [primPut, h1, h2, primGet, ih]

theorem idxGet_idxPut_self (l : List (String × Nat)) (t : String) (i : Nat) :
    idxGet (idxPut l t i) t = some i := by
  induction l with
  | nil => simp [idxPut, idxGet]
  | cons e rest ih =>
    obtain ⟨t', i'⟩ := e
    by_cases h : t' = t
    · subst h; simp [idxPut, idxGet]
    · simp [idxPut, h, idxGet, ih]

theorem idxGet_idxPut_ne (l : List (String × Nat)) (t t' : String) (i : Nat)
    (hne : t' ≠ t) : idxGet (idxPut l t i) t' = idxGet l t' := by
  induction l with
  | nil => simp [idxPut, idxGet, Ne.symm hne]
  | cons e rest ih =>
    obtain ⟨t₀, i₀⟩ := e
    by_cases h : t₀ = t
    · subst h; simp [idxPut, idxGet, Ne.symm hne]
    · simp [idxPut, h, idxGet, ih]

end AssocLemmas

section OpLemmas

/-- Because the load decodes into an unallocated (nil) named return,
`GetAuthorizationByID` can only fail. -/
theorem getByID_always_error (st : StoreState) (id : Nat) :
    ∃ e, GetAuthorizationByID st id = .error e := by
  cases h1 : idEncode id with
  | error e => exact ⟨.invalidAuthID, by simp [GetAuthorizationByID, h1]⟩
  | ok enc =>
    cases h2 : primGet st.primary enc with
    | none => exact ⟨.authNotFound, by simp [GetAuthorizationByID, h1, h2]⟩
    | some v =>
      exact ⟨.invalidEncoding .invalidUnmarshal,
        by simp [GetAuthorizationByID, h1, h2, decodeAuthorization]⟩

/-- `UpdateAuthorization` always fails: its initial load never succeeds. -/
theorem update_always_error (now : Nat) (st : StoreState) (id : Nat)
    (upd : AuthorizationUpdate) :
    ∃ e, UpdateAuthorization now st id upd = .error (.notFoundWrap e) := by
  obtain ⟨e, he⟩ := getByID_always_error st id
  exact ⟨e, by unfold UpdateAuthorization; rw [he]⟩

/-- `DeleteAuthorization` always reports success and leaves the store
untouched: its initial load never succeeds, and a load failure is treated
as a silent no-op. -/
theorem delete_always_noop (st : StoreState) (id : Nat) :
    DeleteAuthorization st id = .ok st := by
  obtain ⟨e, he⟩ := getByID_always_error st id
  unfold DeleteAuthorization
  rw [he]

theorem jsonMarshal_ok {a : Authorization} {v : StoredVal}
    (h : jsonMarshal a = .ok v) : v = .authVal a := by
  unfold jsonMarshal at h
  split at h
  · injection h with h1
    exact h1.symm
  · cases h

theorem jsonMarshal_of_nonzero {a : Authorization} (h1 : a.id ≠ 0)
    (h2 : a.orgID ≠ 0) : jsonMarshal a = .ok (.authVal a) := by
  unfold jsonMarshal idEncode
  rw [if_neg h1, if_neg h2]

theorem jsonMarshal_of_zero {a : Authorization} (h : a.id = 0 ∨ a.orgID = 0) :
    jsonMarshal a = .error .marshalError := by
  unfold jsonMarshal idEncode
  rcases h with h | h
  · rw [if_pos h]
  · rw [if_pos h]
    by_cases h1 : a.id = 0
    · rw [if_pos h1]
    · rw [if_neg h1]

/-- Unmarshaling into the iteration engine's fresh target is the
identity on the stored record: the target's `userID` is itself zero. -/
theorem jsonUnmarshalInto_fresh (a : Authorization) :
    jsonUnmarshalInto freshIterAuth a = a := by
  unfold jsonUnmarshalInto
  by_cases hu : a.userID = 0
  · rw [if_pos hu, show freshIterAuth.userID = 0 from rfl, ← hu]
  · rw [if_neg hu]

/-- Decoding well-formed bytes into the fresh iteration target yields the
stored record with its empty status normalised. -/
theorem decode_fresh (a : Authorization) :
    decodeAuthorization (.authVal a) (some freshIterAuth) =
      .ok (if a.status = "" then { a with status := Active } else a) := by
  show Except.ok (if (jsonUnmarshalInto freshIterAuth a).status = "" then
      { jsonUnmarshalInto freshIterAuth a with status := Active }
    else jsonUnmarshalInto freshIterAuth a) = _
  rw [jsonUnmarshalInto_fresh]

theorem encodeAuthorization_ok {a a' : Authorization} {v : StoredVal}
    (h : encodeAuthorization a = .ok (a', v)) :
    v = .authVal a' ∧ a'.token = a.token ∧ a'.id = a.id := by
  unfold encodeAuthorization at h
  split at h
  · cases hm : jsonMarshal a with
    | error e =>
      rw [hm] at h
      cases h
    | ok v0 =>
      rw [hm] at h
      injection h with h1
      injection h1 with h2 h3
      subst h2
      subst h3
      exact ⟨jsonMarshal_ok hm, rfl, rfl⟩
  · split at h
    · cases hm : jsonMarshal { a with status := Active } with
      | error e =>
        rw [hm] at h
        cases h
      | ok v0 =>
        rw [hm] at h
        injection h with h1
        injection h1 with h2 h3
        subst h2
        subst h3
        exact ⟨jsonMarshal_ok hm, rfl, rfl⟩
    · cases h

theorem idEncode_ok {n m : Nat} (h : idEncode n = .ok m) : m = n ∧ n ≠ 0 := by
  unfold idEncode at h
  split at h
  · cases h
  next h0 => injection h with h1; exact ⟨h1.symm, h0⟩

theorem uniqueAuthToken_none {st : StoreState} {t : String}
    (h : uniqueAuthToken st t = none) : idxGet st.index t = none := by
  unfold uniqueAuthToken unique uniqueFromGet at h
  cases hg : idxGet st.index t with
  | none => rfl
  | some i => rw [hg] at h; cases h

/-- Shape of a successful `createAuthorizationCore`: the encoded record is
stored, the written identifier is the (valid) identifier of the returned
record, the token was absent from the index, and both buckets receive
their entry. -/
theorem createAuthorizationCore_ok {st st' : StoreState}
    {a a' : Authorization} (h : createAuthorizationCore st a = .ok (st', a')) :
    a'.id ≠ 0 ∧ idxGet st.index a'.token = none ∧
    st' = ⟨primPut st.primary a'.id (.authVal a'),
           idxPut st.index a'.token a'.id⟩ := by
  unfold createAuthorizationCore at h
  split at h
  · cases h
  next a₁ v he =>
    split at h
    · cases h
    next enc hid =>
      split at h
      · cases h
      next hu =>
        injection h with h1
        injection h1 with h2 h3
        subst h3
        obtain ⟨hv, _, _⟩ := encodeAuthorization_ok he
        obtain ⟨henc, h0⟩ := idEncode_ok hid
        subst hv; subst henc
        refine ⟨h0, uniqueAuthToken_none hu, ?_⟩
        rw [← h2]

/-- A successful `createAuthorizationCore` under a fresh identifier
preserves bidirectional index consistency. -/
theorem consistent_createCore {st st' : StoreState} {a a' : Authorization}
    (hC : Consistent st) (h : createAuthorizationCore st a = .ok (st', a'))
    (hfresh : primGet st.primary a'.id = none) : Consistent st' := by
  obtain ⟨hid0, huniq, hst⟩ := createAuthorizationCore_ok h
  subst hst
  constructor
  · intro t i hti
    by_cases ht : t = a'.token
    · subst ht
      rw [idxGet_idxPut_self] at hti
      injection hti with hi
      subst hi
      exact ⟨a', by rw [primGet_primPut_self], rfl⟩
    · rw [idxGet_idxPut_ne _ _ _ _ ht] at hti
      obtain ⟨b, hb, hbt⟩ := hC.1 t i hti
      have hib : i ≠ a'.id := by
        intro hi
        subst hi
        rw [hfresh] at hb
        cases hb
      exact ⟨b, by rw [primGet_primPut_ne _ _ _ _ hib]; exact hb, hbt⟩
  · intro k v hkv
    by_cases hk : k = a'.id
    · subst hk
      rw [primGet_primPut_self] at hkv
      injection hkv with hv
      subst hv
      exact ⟨a', rfl, by rw [idxGet_idxPut_self]⟩
    · rw [primGet_primPut_ne _ _ _ _ hk] at hkv
      obtain ⟨b, hv, hbk⟩ := hC.2 k v hkv
      have hbt : b.token ≠ a'.token := by
        intro he2
        rw [he2, huniq] at hbk
        cases hbk
      exact ⟨b, hv, by rw [idxGet_idxPut_ne _ _ _ _ hbt]; exact hbk⟩

/-- Every fresh-identifier step preserves bidirectional consistency. -/
theorem consistent_stepF {st st' : StoreState} (hC : Consistent st)
    (h : StepF st st') : Consistent st' := by
  cases h with
  | create gen a hcr hfresh =>
    unfold CreateAuthorization at hcr
    split at hcr
    · exact consistent_createCore hC hcr hfresh
    · cases gen with
      | error e =>
        injection hcr with h1
        injection h1 with h2 h3
        subst h2
        exact hC
      | ok newId => exact consistent_createCore hC hcr hfresh
  | update now id upd hup =>
    obtain ⟨e, he⟩ := update_always_error now st id upd
    rw [he] at hup
    cases hup
  | delete id hdel =>
    rw [delete_always_noop st id] at hdel
    injection hdel with h1
    subst h1
    exact hC

theorem consistent_empty : Consistent emptyStore := by
  constructor
  · intro t i h
    cases h
  · intro k v h
    cases h

/-- Characterisation of the cursor loop with a recording callback: the
loop consumes a leading segment of the entry list whose every element
decodes and is accepted for continuation, and then either the list is
exhausted, or a decode error aborts with exactly that error, or the
callback declines and iteration stops with that one further record
visited. The recorded visit list is the in-order decode of the consumed
segment. -/
theorem forEachLoop_character (cont : Authorization → Bool) :
    ∀ (entries : List (Nat × StoredVal)) (acc : List Authorization),
    ∃ pre rest, entries = pre ++ rest ∧
      (∀ e ∈ pre, ∃ a, decodeAuthorization e.2 (some freshIterAuth) = .ok a ∧
        cont a = true) ∧
      ((rest = [] ∧
        forEachLoop (fun s a => (cont a, s ++ [a])) entries acc =
          (.ok (), acc ++ decs pre)) ∨
       (∃ k v rest2 err, rest = (k, v) :: rest2 ∧
          decodeAuthorization v (some freshIterAuth) = .error err ∧
          forEachLoop (fun s a => (cont a, s ++ [a])) entries acc =
            (.error err, acc ++ decs pre)) ∨
       (∃ k v rest2 a, rest = (k, v) :: rest2 ∧
          decodeAuthorization v (some freshIterAuth) = .ok a ∧ cont a = false ∧
          forEachLoop (fun s a => (cont a, s ++ [a])) entries acc =
            (.ok (), acc ++ (decs pre ++ [a])))) := by
  intro entries
  induction entries with
  | nil =>
    intro acc
    exact ⟨[], [], rfl, by simp, .inl ⟨rfl, by simp [forEachLoop, decs]⟩⟩
  | cons e rest0 ih =>
    intro acc
    obtain ⟨k, v⟩ := e
    cases hd : decodeAuthorization v (some freshIterAuth) with
    | error err =>
      refine ⟨[], (k, v) :: rest0, rfl, by simp,
        .inr (.inl ⟨k, v, rest0, err, rfl, hd, ?_⟩)⟩
      simp [forEachLoop, hd, decs]
    | ok a =>
      cases hc : cont a with
      | false =>
        refine ⟨[], (k, v) :: rest0, rfl, by simp,
          .inr (.inr ⟨k, v, rest0, a, rfl, hd, hc, ?_⟩)⟩
        simp [forEachLoop, hd, hc, decs]
      | true =>
        obtain ⟨pre0, rest1, heq, hpre, hcase⟩ := ih (acc ++ [a])
        have hstep : forEachLoop (fun s a => (cont a, s ++ [a]))
            ((k, v) :: rest0) acc =
            forEachLoop (fun s a => (cont a, s ++ [a])) rest0 (acc ++ [a]) := by
          simp [forEachLoop, hd, hc]
        have hdecs : decs ((k, v) :: pre0) = a :: decs pre0 := by
          simp [decs, List.filterMap_cons, hd, Except.toOption]
        refine ⟨(k, v) :: pre0, rest1, by simp [heq], ?_, ?_⟩
        · intro e he
          rcases List.mem_cons.mp he with h | h
          · subst h
            exact ⟨a, hd, hc⟩
          · exact hpre e h
        · rcases hcase with ⟨hrest, hout⟩ |
            ⟨k2, v2, rest2, err, hrest, hderr, hout⟩ |
            ⟨k2, v2, rest2, a2, hrest, hd2, hc2, hout⟩
          · refine .inl ⟨hrest, ?_⟩
            rw [hstep, hout, hdecs]
            simp
          · refine .inr (.inl ⟨k2, v2, rest2, err, hrest, hderr, ?_⟩)
            rw [hstep, hout, hdecs]
            simp
          · refine .inr (.inr ⟨k2, v2, rest2, a2, hrest, hd2, hc2, ?_⟩)
            rw [hstep, hout, hdecs]
            simp

end OpLemmas

section Claims

/-- C1: the claim says `GetAuthorizationByID` returns the stored record
(and, for a record persisted by `CreateAuthorization`, succeeds with that
record), with an Invalid-encoding error only when the stored bytes fail
to decode. The code cannot do this: it decodes into a nil named-return
pointer, so every lookup of an existing, well-formed record fails with an
Invalid-encoding error, and the function never returns a record at all. -/
theorem GetAuthorizationByID_never_returns_record :
    CreateAuthorization (.ok 1) emptyStore aNew = .ok (stOne, aStored) ∧
    primGet stOne.primary 1 = some (.authVal aStored) ∧
    GetAuthorizationByID stOne 1 = .error (.invalidEncoding .invalidUnmarshal) ∧
    ∀ (st : StoreState) (id : Nat) (x : Option Authorization),
      GetAuthorizationByID st id ≠ .ok x := by
  refine ⟨rfl, by decide, rfl, ?_⟩
  intro st id x hok
  obtain ⟨e, he⟩ := getByID_always_error st id
  rw [he] at hok
  cases hok

/-- C2: the claim says a successful `UpdateAuthorization` persists the
updated status/description with an advanced updated-at and returns the
newly persisted record. The code can never succeed: its initial load
decodes into a nil pointer and always fails, so every update returns a
Not-Found-wrapped error and leaves the store untouched — and the body
would in any case persist the bytes encoded before the update fields
were applied. -/
theorem UpdateAuthorization_never_succeeds :
    UpdateAuthorization 99 stOne 1 ⟨some Inactive, none⟩ =
      .error (.notFoundWrap (.invalidEncoding .invalidUnmarshal)) ∧
    ∀ (now : Nat) (st : StoreState) (id : Nat) (upd : AuthorizationUpdate)
      (st' : StoreState) (a' : Authorization),
      UpdateAuthorization now st id upd ≠ .ok (st', a') := by
  refine ⟨rfl, ?_⟩
  intro now st id upd st' a' hok
  obtain ⟨e, he⟩ := update_always_error now st id upd
  rw [he] at hok
  cases hok

/-- C3: the claim says deleting a missing identifier is a silent success
(which holds) and that deleting an existing record removes both entries,
after which both lookups report Not-Found. In the code the initial load
never succeeds (nil decode target), so delete is always a no-op success:
the existing record's entries survive, and the subsequent token lookup
reports an Invalid-encoding error rather than Not-Found. -/
theorem DeleteAuthorization_always_noop :
    DeleteAuthorization emptyStore 5 = .ok emptyStore ∧
    DeleteAuthorization stOne 1 = .ok stOne ∧
    primGet stOne.primary 1 = some (.authVal aStored) ∧
    idxGet stOne.index "a" = some 1 ∧
    GetAuthorizationByToken stOne "a" =
      .error (.invalidEncoding .invalidUnmarshal) ∧
    ∀ (st : StoreState) (id : Nat), DeleteAuthorization st id = .ok st :=
  ⟨rfl, rfl, by decide, by decide, rfl, delete_always_noop⟩

/-- C4: creating a second record with an already-indexed token fails with
the generic `ErrUnableToCreateToken` (never the descriptive
`NotUniqueError`), leaving exactly one index entry and one primary entry
for the token; an index hit always maps to the generic error, an absent
token passes the uniqueness check, and any lookup failure other than
not-found is wrapped as an unexpected-index error and propagated. -/
theorem uniqueAuthToken_enforcement :
    CreateAuthorization (.ok 2) stOne aDup = .error .unableToCreateToken ∧
    (stOne.index.filter (fun e => e.1 == "a")).length = 1 ∧
    (stOne.primary.filter (fun e =>
       match e.2 with
       | .authVal a => a.token == "a"
       | .corrupt => false)).length = 1 ∧
    (∀ (st : StoreState) (t : String) (i : Nat), idxGet st.index t = some i →
       uniqueAuthToken st t = some .unableToCreateToken) ∧
    (∀ (st : StoreState) (t : String), idxGet st.index t = none →
       uniqueAuthToken st t = none) ∧
    (∀ e, uniqueFromGet (.otherError e) = some (.unexpectedIndexError e)) := by
  refine ⟨rfl, by decide, by decide, ?_, ?_, fun e => rfl⟩
  · intro st t i h
    simp [uniqueAuthToken, unique, uniqueFromGet, h]
  · intro st t h
    simp [uniqueAuthToken, unique, uniqueFromGet, h]

/-- C4 witness: the uniqueness analysis applied to a concrete store with
an indexed token and to a concrete absent token. -/
theorem uniqueAuthToken_enforcement_witness :
    uniqueAuthToken stOne "a" = some .unableToCreateToken ∧
    uniqueAuthToken stOne "zz" = none :=
  ⟨uniqueAuthToken_enforcement.2.2.2.1 stOne "a" 1 (by decide),
   uniqueAuthToken_enforcement.2.2.2.2.1 stOne "zz" (by decide)⟩

/-- C10: when the input record has no valid identifier and the
identifier-generation capability fails, `CreateAuthorization` executes
`return nil`: it reports success, writes to neither bucket, and leaves
the record without an assigned identifier. -/
theorem CreateAuthorization_generator_error_silent :
    ∀ (st : StoreState) (a : Authorization), idValid a.id = false →
      CreateAuthorization (.error ()) st a = .ok (st, a) := by
  intro st a h
  simp [CreateAuthorization, h]

/-- C10 witness: the silent success on a concrete store and record. -/
theorem CreateAuthorization_generator_error_silent_witness :
    CreateAuthorization (.error ()) stOne aDup = .ok (stOne, aDup) :=
  CreateAuthorization_generator_error_silent stOne aDup (by decide)

/-- A successful decode into the iteration engine's fresh target exposes
the underlying record; only the status can differ (empty normalised to
Active). -/
theorem decode_some_fields {v : StoredVal} {a : Authorization}
    (h : decodeAuthorization v (some freshIterAuth) = .ok a) :
    ∃ a₀, v = .authVal a₀ ∧ a.id = a₀.id ∧ a.token = a₀.token ∧
      a.orgID = a₀.orgID ∧ a.userID = a₀.userID := by
  cases v with
  | corrupt => simp [decodeAuthorization] at h
  | authVal a₀ =>
    refine ⟨a₀, rfl, ?_⟩
    rw [decode_fresh] at h
    injection h with h1
    by_cases hs : a₀.status = "" <;> simp [hs] at h1 <;> subst h1 <;> simp

/-- C5 (counterexample): the claim says the hint predicate returns
include whenever extraction of the relevant field fails or the field is
absent, and hence never rejects a value the authoritative filter accepts.
For a user filter, a value whose `userID` field is absent (extraction
succeeds with `exists = false`) is excluded; with the filter user 0 the
authoritative filter accepts that record while the hint predicate
rejects it. -/
theorem hint_excludes_absent_userID :
    rawGetOptionalUserID vBare = .ok (0, false) ∧
    (authorizationsPredicateFn fUser5).map (fun p => p 0 vBare) = some false ∧
    filterAuthorizationsFn fUser0 rBare = true ∧
    (authorizationsPredicateFn fUser0).map (fun p => p 0 vBare) = some false :=
  ⟨rfl, rfl, by decide, rfl⟩

/-- C5 (amended): the hint predicate built for any filter returns include
whenever field extraction fails (corrupt bytes); the userID branch
excludes values whose field is absent without error, so freedom from
false negatives relative to the authoritative filter holds whenever the
user filter, when set, is a nonzero identifier. -/
theorem authorizationsPredicateFn_optimistic :
    ∀ (f : AuthorizationFilter) (p : Nat → StoredVal → Bool) (k : Nat),
      authorizationsPredicateFn f = some p →
      p k .corrupt = true ∧
      (∀ (v : StoredVal) (a : Authorization), f.userID ≠ some 0 →
        decodeAuthorization v (some freshIterAuth) = .ok a →
        filterAuthorizationsFn f a = true → p k v = true) := by
  intro f p k hp
  obtain ⟨fid, ftok, forg, fuser⟩ := f
  cases fid with
  | some i =>
    simp [authorizationsPredicateFn] at hp
    subst hp
    refine ⟨rfl, ?_⟩
    intro v a hu hdec hfil
    obtain ⟨a₀, hv, hid, htok, horg, huser⟩ := decode_some_fields hdec
    subst hv
    simp [filterAuthorizationsFn] at hfil
    simp [rawGetID, ← hid, hfil]
  | none =>
    cases ftok with
    | some tk =>
      simp [authorizationsPredicateFn] at hp
      subst hp
      refine ⟨rfl, ?_⟩
      intro v a hu hdec hfil
      obtain ⟨a₀, hv, hid, htok, horg, huser⟩ := decode_some_fields hdec
      subst hv
      simp [filterAuthorizationsFn] at hfil
      simp [rawGetToken, ← htok, hfil]
    | none =>
      cases forg with
      | some o =>
        cases fuser with
        | some u =>
          simp [authorizationsPredicateFn] at hp
          subst hp
          refine ⟨rfl, ?_⟩
          intro v a hu hdec hfil
          obtain ⟨a₀, hv, hid, htok, horg, huser⟩ := decode_some_fields hdec
          subst hv
          simp [filterAuthorizationsFn] at hfil
          obtain ⟨h1, h2⟩ := hfil
          have hu0 : u ≠ 0 := by
            intro h0
            exact hu (by rw [h0])
          have hau : a₀.userID = u := by rw [← huser, h2]
          have hao : a₀.orgID = o := by rw [← horg, h1]
          simp [rawGetOrgID, rawGetOptionalUserID, hau, hao, hu0]
        | none =>
          simp [authorizationsPredicateFn] at hp
          subst hp
          refine ⟨rfl, ?_⟩
          intro v a hu hdec hfil
          obtain ⟨a₀, hv, hid, htok, horg, huser⟩ := decode_some_fields hdec
          subst hv
          simp [filterAuthorizationsFn] at hfil
          simp [rawGetOrgID, ← horg, hfil]
      | none =>
        cases fuser with
        | some u =>
          simp [authorizationsPredicateFn] at hp
          subst hp
          refine ⟨rfl, ?_⟩
          intro v a hu hdec hfil
          obtain ⟨a₀, hv, hid, htok, horg, huser⟩ := decode_some_fields hdec
          subst hv
          simp [filterAuthorizationsFn] at hfil
          have hu0 : u ≠ 0 := by
            intro h0
            exact hu (by rw [h0])
          have hau : a₀.userID = u := by rw [← huser, hfil]
          simp [rawGetOptionalUserID, hau, hu0]
        | none => simp [authorizationsPredicateFn] at hp

/-- C5 witness: the amended guarantee applied to the concrete user-5
filter, on corrupt bytes and on a matching record with a present field. -/
theorem authorizationsPredicateFn_optimistic_witness :
    ((authorizationsPredicateFn fUser5).getD (fun _ _ => false)) 0 .corrupt =
      true ∧
    ((authorizationsPredicateFn fUser5).getD (fun _ _ => false)) 0
      (.authVal rUser5) = true := by
  have h := authorizationsPredicateFn_optimistic fUser5
    ((authorizationsPredicateFn fUser5).getD (fun _ _ => false)) 0 rfl
  exact ⟨h.1, h.2 (.authVal rUser5) rUser5 (by decide) rfl (by decide)⟩

/-- C6: the authoritative filter honours strict precedence — identifier,
else token, else organisation and user both, else organisation, else
user, else match-all — and the concrete scenario with records A and B
yields exactly the listed results, the token filter ignoring any
organisation/user fields also set. -/
theorem filterAuthorizationsFn_precedence :
    (∀ (f : AuthorizationFilter) (i : Nat) (a : Authorization),
       f.id = some i → filterAuthorizationsFn f a = (a.id == i)) ∧
    (∀ (f : AuthorizationFilter) (t : String) (a : Authorization),
       f.id = none → f.token = some t →
       filterAuthorizationsFn f a = (a.token == t)) ∧
    (∀ (f : AuthorizationFilter) (o u : Nat) (a : Authorization),
       f.id = none → f.token = none → f.orgID = some o → f.userID = some u →
       filterAuthorizationsFn f a = (a.orgID == o && a.userID == u)) ∧
    (∀ (f : AuthorizationFilter) (o : Nat) (a : Authorization),
       f.id = none → f.token = none → f.orgID = some o → f.userID = none →
       filterAuthorizationsFn f a = (a.orgID == o)) ∧
    (∀ (f : AuthorizationFilter) (u : Nat) (a : Authorization),
       f.id = none → f.token = none → f.orgID = none → f.userID = some u →
       filterAuthorizationsFn f a = (a.userID == u)) ∧
    (∀ (a : Authorization), filterAuthorizationsFn {} a = true) ∧
    ListAuthorizations stAB { orgID := some 10 } = .ok [recA, recB] ∧
    ListAuthorizations stAB { orgID := some 10, userID := some 100 } =
      .ok [recA] ∧
    ListAuthorizations stAB { token := some "a" } = .ok [recA] ∧
    ListAuthorizations stAB
      { token := some "a", orgID := some 99, userID := some 999 } =
      .ok [recA] ∧
    ListAuthorizations stAB {} = .ok [recA, recB] := by
  refine ⟨?_, ?_, ?_, ?_, ?_, fun a => rfl, rfl, rfl, rfl, rfl, rfl⟩
  · intro f i a h
    obtain ⟨fid, ftok, forg, fuser⟩ := f
    simp only at h
    subst h
    rfl
  · intro f t a h1 h2
    obtain ⟨fid, ftok, forg, fuser⟩ := f
    simp only at h1 h2
    subst h1
    subst h2
    rfl
  · intro f o u a h1 h2 h3 h4
    obtain ⟨fid, ftok, forg, fuser⟩ := f
    simp only at h1 h2 h3 h4
    subst h1
    subst h2
    subst h3
    subst h4
    rfl
  · intro f o a h1 h2 h3 h4
    obtain ⟨fid, ftok, forg, fuser⟩ := f
    simp only at h1 h2 h3 h4
    subst h1
    subst h2
    subst h3
    subst h4
    rfl
  · intro f u a h1 h2 h3 h4
    obtain ⟨fid, ftok, forg, fuser⟩ := f
    simp only at h1 h2 h3 h4
    subst h1
    subst h2
    subst h3
    subst h4
    rfl

/-- C6 witness: the identifier-precedence equation at a concrete filter
and record. -/
theorem filterAuthorizationsFn_precedence_witness :
    filterAuthorizationsFn { id := some 7 } recA = (recA.id == 7) :=
  filterAuthorizationsFn_precedence.1 { id := some 7 } 7 recA rfl

/-- C7 (counterexample): the claim asserts `decode (encode r)` succeeds
and round-trips for every record with status Active, Inactive or empty.
`aNew` has the empty (valid) status, yet its zero identifier makes
`json.Marshal` fail through `ID.MarshalJSON`, so `encodeAuthorization`
produces no encoding at all and the claimed round trip is impossible. -/
theorem encode_valid_status_marshal_failure :
    aNew.status = "" ∧ encodeAuthorization aNew = .error .marshalError ∧
    ∀ x, encodeAuthorization aNew ≠ .ok x := by
  refine ⟨rfl, rfl, ?_⟩
  intro x h
  have h' : (Except.error .marshalError :
      Except EncodeErr (Authorization × StoredVal)) = .ok x := h
  cases h'

/-- C7 (amended): for every record with status Active, Inactive or empty
whose id and orgID are valid (nonzero) — i.e. every record `json.Marshal`
can serialize — encode succeeds and decoding the produced bytes into the
program's fresh read target returns the record with its empty status
normalised to Active; decode independently normalises an empty stored
status; a valid-status record with a zero id or orgID fails encode with
the marshal error; any other status fails encode with the Invalid-input
unknown-status error before serialization. -/
theorem encodeAuthorization_roundtrip :
    ∀ (a : Authorization),
      ((a.status = Active ∨ a.status = Inactive ∨ a.status = "") →
        a.id ≠ 0 → a.orgID ≠ 0 →
        encodeAuthorization a =
          .ok (normalizeStatus a, .authVal (normalizeStatus a)) ∧
        decodeAuthorization (.authVal (normalizeStatus a))
          (some freshIterAuth) = .ok (normalizeStatus a) ∧
        normalizeStatus a =
          (if a.status = "" then { a with status := Active } else a)) ∧
      (a.status = "" →
        decodeAuthorization (.authVal a) (some freshIterAuth) =
          .ok { a with status := Active }) ∧
      ((a.status = Active ∨ a.status = Inactive ∨ a.status = "") →
        (a.id = 0 ∨ a.orgID = 0) →
        encodeAuthorization a = .error .marshalError) ∧
      (a.status ≠ Active → a.status ≠ Inactive → a.status ≠ "" →
        encodeAuthorization a = .error .unknownStatus) := by
  intro a
  refine ⟨?_, ?_, ?_, ?_⟩
  · intro hst hid horg
    have hM := jsonMarshal_of_nonzero hid horg
    rcases hst with h | h | h
    · have hns : normalizeStatus a = a := by
        unfold normalizeStatus
        rw [if_neg (by rw [h]; decide)]
      refine ⟨?_, ?_, rfl⟩
      · unfold encodeAuthorization
        rw [if_pos (Or.inl h), hM, hns]
      · rw [hns, decode_fresh, if_neg (by rw [h]; decide)]
    · have hns : normalizeStatus a = a := by
        unfold normalizeStatus
        rw [if_neg (by rw [h]; decide)]
      refine ⟨?_, ?_, rfl⟩
      · unfold encodeAuthorization
        rw [if_pos (Or.inr h), hM, hns]
      · rw [hns, decode_fresh, if_neg (by rw [h]; decide)]
    · have hns : normalizeStatus a = { a with status := Active } := by
        unfold normalizeStatus
        rw [if_pos h]
      have hM' : jsonMarshal { a with status := Active } =
          .ok (.authVal { a with status := Active }) :=
        jsonMarshal_of_nonzero hid horg
      refine ⟨?_, ?_, rfl⟩
      · unfold encodeAuthorization
        rw [if_neg (by rw [h]; decide), if_pos h, hM', hns]
      · have hne : ({ a with status := Active } : Authorization).status ≠ "" :=
          fun hcon => (by decide : Active ≠ ("" : String)) hcon
        rw [hns, decode_fresh, if_neg hne]
  · intro h
    rw [decode_fresh, if_pos h]
  · intro hst hzero
    rcases hst with h | h | h
    · unfold encodeAuthorization
      rw [if_pos (Or.inl h), jsonMarshal_of_zero hzero]
    · unfold encodeAuthorization
      rw [if_pos (Or.inr h), jsonMarshal_of_zero hzero]
    · unfold encodeAuthorization
      rw [if_neg (by rw [h]; decide), if_pos h,
        @jsonMarshal_of_zero { a with status := Active } hzero]
  · intro h1 h2 h3
    simp [encodeAuthorization, h1, h2, h3]

/-- C7 witness: the round trip on a concrete marshalable record, the
marshal failure on a concrete zero-id record with valid status, and the
encode failure on a concrete unknown status. -/
theorem encodeAuthorization_roundtrip_witness :
    encodeAuthorization aStored =
      .ok (normalizeStatus aStored, .authVal (normalizeStatus aStored)) ∧
    decodeAuthorization (.authVal (normalizeStatus aStored))
      (some freshIterAuth) = .ok (normalizeStatus aStored) ∧
    encodeAuthorization aNew = .error .marshalError ∧
    encodeAuthorization { aStored with status := "bogus" } =
      .error .unknownStatus := by
  have h := encodeAuthorization_roundtrip aStored
  have h2 := encodeAuthorization_roundtrip aNew
  have h3 := encodeAuthorization_roundtrip { aStored with status := "bogus" }
  refine ⟨(h.1 (Or.inl rfl) (by decide) (by decide)).1,
    (h.1 (Or.inl rfl) (by decide) (by decide)).2.1, ?_, ?_⟩
  · exact h2.2.2.1 (Or.inr (Or.inr rfl)) (Or.inl rfl)
  · exact h3.2.2.2 (by decide) (by decide) (by decide)

/-- C8 (counterexample): the claim asserts bidirectional consistency in
every state reachable from the empty store. Creating a record under
caller-supplied identifier 1 and then creating a second record that
reuses identifier 1 with a different token overwrites the primary entry
while the first token's index entry survives, so the reachable state
`stXY` has an index key x pointing at a record whose token is y. -/
theorem create_duplicate_id_breaks_consistency :
    Reachable stXY ∧ ¬ Consistent stXY := by
  constructor
  · have h1 : CreateAuthorization (.error ()) emptyStore cFirst =
        .ok (stX, cFirst) := rfl
    have h2 : CreateAuthorization (.error ()) stX cSecond =
        .ok (stXY, cSecond) := rfl
    exact Relation.ReflTransGen.tail
      (Relation.ReflTransGen.single (Step.create _ _ h1)) (Step.create _ _ h2)
  · intro hcon
    obtain ⟨b, hb, hbt⟩ := hcon.1 "x" 1 rfl
    have hb0 : primGet stXY.primary 1 = some (StoredVal.authVal cSecond) := rfl
    rw [hb0] at hb
    injection hb with hb1
    injection hb1 with hb2
    rw [← hb2] at hbt
    exact absurd hbt (by decide)

/-- C8 (amended): bidirectional index consistency holds in every state
reachable from the empty store by successful operations in which each
create writes under an identifier not already present in the primary
bucket (fresh caller-supplied identifiers; collision-checked
generation). -/
theorem consistent_of_reachableF :
    ∀ st : StoreState, ReachableF st → Consistent st := by
  intro st h
  have h' : Relation.ReflTransGen StepF emptyStore st := h
  clear h
  induction h' with
  | refl => exact consistent_empty
  | tail hab hbc ih => exact consistent_stepF ih hbc

/-- C8 witness: consistency of the concrete store reached by one fresh
create. -/
theorem consistent_of_reachableF_witness : Consistent stX :=
  consistent_of_reachableF stX
    (Relation.ReflTransGen.single (StepF.create (.error ()) cFirst rfl rfl))

/-- C9: iteration over the primary bucket is a single forward pass over a
leading segment of the cursor's ascending-key entry list: every consumed
entry is decoded and handed to the callback exactly once, in order; the
pass either exhausts the bucket, aborts on the first decode error with
that error propagated and nothing further visited, or stops immediately
after the first callback that returns false. -/
theorem forEachAuthorization_single_pass :
    ∀ (st : StoreState) (cont : Authorization → Bool),
    ∃ pre rest, st.primary = pre ++ rest ∧
      (∀ e ∈ pre, ∃ a, decodeAuthorization e.2 (some freshIterAuth) = .ok a ∧
        cont a = true) ∧
      (List.Chain' (fun x y => x.1 < y.1) st.primary →
        List.Chain' (fun x y => x.1 < y.1) pre) ∧
      ((rest = [] ∧
        forEachAuthorization st none (fun s a => (cont a, s ++ [a]))
          ([] : List Authorization) = (.ok (), decs pre)) ∨
       (∃ k v rest2 err, rest = (k, v) :: rest2 ∧
          decodeAuthorization v (some freshIterAuth) = .error err ∧
          forEachAuthorization st none (fun s a => (cont a, s ++ [a]))
            ([] : List Authorization) = (.error err, decs pre)) ∨
       (∃ k v rest2 a, rest = (k, v) :: rest2 ∧
          decodeAuthorization v (some freshIterAuth) = .ok a ∧ cont a = false ∧
          forEachAuthorization st none (fun s a => (cont a, s ++ [a]))
            ([] : List Authorization) = (.ok (), decs pre ++ [a]))) := by
  intro st cont
  obtain ⟨pre, rest, heq, hpre, hcase⟩ :=
    forEachLoop_character cont st.primary []
  refine ⟨pre, rest, heq, hpre, ?_, ?_⟩
  · intro hch
    rw [heq] at hch
    exact (List.chain'_append.mp hch).1
  · have hfa : forEachAuthorization st none (fun s a => (cont a, s ++ [a]))
        ([] : List Authorization) =
        forEachLoop (fun s a => (cont a, s ++ [a])) st.primary [] := rfl
    rcases hcase with ⟨h1, h2⟩ | ⟨k, v, r2, err, h1, h2, h3⟩ |
      ⟨k, v, r2, a, h1, h2, h3, h4⟩
    · exact .inl ⟨h1, by rw [hfa, h2]; simp⟩
    · exact .inr (.inl ⟨k, v, r2, err, h1, h2, by rw [hfa, h3]; simp⟩)
    · exact .inr (.inr ⟨k, v, r2, a, h1, h2, h3, by rw [hfa, h4]; simp⟩)

end Claims

end Token
